import Mathlib

/-!
Shallow embedding of the alerting, refresh, toast-queue and stored-configuration
logic of src/App.tsx of the crypto RSI scanner, together with theorems checking
the specification's claims about that logic.
-/

namespace CryptoScanner

/-- Per-symbol RSI alert status, the string union used in App.tsx
(overbought, oversold, neutral). -/
inductive AlertStatus where
  | neutral
  | overbought
  | oversold
deriving DecidableEq

/-- Kind of a toast (the field named type on the Toast record). -/
inductive ToastKind where
  | overbought
  | oversold
deriving DecidableEq

/-- One point of an RSI series; the alert effect reads only the value field. -/
structure RsiPoint where
  timestamp : Nat
  value : ℚ
deriving DecidableEq

/-- Per-symbol data held in the snapshot. App.tsx reads only the rsi list of
this record; the candle fields of the TS type are never touched by the
embedded logic, so they are omitted here. -/
structure SymbolData where
  rsi : List RsiPoint
deriving DecidableEq

/-- The symbolsData Record mapping symbol to SymbolData, listed in
Object.keys order. -/
abbrev Snapshot := List (String × SymbolData)

/-- The lastAlertedRsiStatus Record; none models an absent key, matching the
read pattern (map[symbol] or else neutral) of App.tsx line 252. -/
abbrev StatusMap := String → Option AlertStatus

/-- Record write: newAlertStatus[symbol] = status (App.tsx line 269). -/
def updateStatus (m : StatusMap) (symbol : String) (status : AlertStatus) : StatusMap :=
  fun s => if s = symbol then some status else m s

/-- Payload passed to addToast (Toast without its id). -/
structure ToastPayload where
  symbol : String
  timeframe : String
  rsi : ℚ
  type : ToastKind
deriving DecidableEq

/-- A toast as stored in the toasts state array. -/
structure Toast where
  id : Nat
  symbol : String
  timeframe : String
  rsi : ℚ
  type : ToastKind
deriving DecidableEq

/-- addToast (App.tsx lines 228-230): appends to the queue, assigning as id the
current clock reading Date.now(), here passed in as the parameter now. -/
def addToast (now : Nat) (toast : ToastPayload) (prev : List Toast) : List Toast :=
  prev ++ [{ id := now, symbol := toast.symbol, timeframe := toast.timeframe,
             rsi := toast.rsi, type := toast.type }]

/-- removeToast (App.tsx lines 231-233): keeps every toast whose id differs. -/
def removeToast (id : Nat) (prev : List Toast) : List Toast :=
  prev.filter (fun toast => toast.id ≠ id)

/-- Folding addToast over a sequence of (push time, payload) pairs. -/
def pushAll (pushes : List (Nat × ToastPayload)) (q : List Toast) : List Toast :=
  pushes.foldl (fun acc pr => addToast pr.1 pr.2 acc) q

/-- Overbought threshold fixed in the alert effect (App.tsx line 244). -/
def overboughtThreshold : ℚ := 70

/-- Oversold threshold fixed in the alert effect (App.tsx line 245). -/
def oversoldThreshold : ℚ := 30

/-- Allow-list of timeframes eligible for alerting (App.tsx line 237). -/
def ALLOWED_TIMEFRAMES_FOR_ALERTS : List String :=
  ["15m", "30m", "1h", "2h", "4h", "8h", "1d", "3d", "1w"]

/-- Status computed from the latest RSI value, mirroring the branch structure
of the alert effect (App.tsx lines 255-267). -/
def computeStatus (lastRsi : ℚ) : AlertStatus :=
  if lastRsi ≥ overboughtThreshold then AlertStatus.overbought
  else if lastRsi ≤ oversoldThreshold then AlertStatus.oversold
  else AlertStatus.neutral

/-- Body of the forEach over Object.keys(symbolsData) in the alert effect
(App.tsx lines 247-270). The accumulator carries the newAlertStatus map being
built and the toasts pushed so far in this cycle; previousStatus is read from
the old map lastAlertedRsiStatus, exactly as in the source. A symbol with an
empty rsi list returns early, leaving the accumulator untouched. -/
def forEachBody (timeframe : String) (lastAlertedRsiStatus : StatusMap)
    (acc : StatusMap × List ToastPayload) (symbol : String) (symbolData : SymbolData) :
    StatusMap × List ToastPayload :=
  match symbolData.rsi.getLast? with
  | none => acc
  | some lastPoint =>
    let lastRsi := lastPoint.value
    let previousStatus := (lastAlertedRsiStatus symbol).getD AlertStatus.neutral
    if lastRsi ≥ overboughtThreshold then
      (updateStatus acc.1 symbol AlertStatus.overbought,
       if previousStatus ≠ AlertStatus.overbought then
         acc.2 ++ [⟨symbol, timeframe, lastRsi, ToastKind.overbought⟩]
       else acc.2)
    else if lastRsi ≤ oversoldThreshold then
      (updateStatus acc.1 symbol AlertStatus.oversold,
       if previousStatus ≠ AlertStatus.oversold then
         acc.2 ++ [⟨symbol, timeframe, lastRsi, ToastKind.oversold⟩]
       else acc.2)
    else
      (updateStatus acc.1 symbol AlertStatus.neutral, acc.2)

/-- One run of the alert effect (App.tsx lines 236-276) for a refresh cycle:
returns the recorded status map after the cycle and the toasts pushed during
it. The guard of line 239 skips everything when alerting is disabled, the
timeframe is not in the allow-list, or the snapshot is empty. -/
def alertEffect (areAlertsEnabled : Bool) (timeframe : String)
    (symbolsData : Snapshot) (lastAlertedRsiStatus : StatusMap) :
    StatusMap × List ToastPayload :=
  if areAlertsEnabled = false ∨ timeframe ∉ ALLOWED_TIMEFRAMES_FOR_ALERTS
      ∨ symbolsData.isEmpty = true then
    (lastAlertedRsiStatus, [])
  else
    symbolsData.foldl
      (fun acc entry => forEachBody timeframe lastAlertedRsiStatus acc entry.1 entry.2)
      (lastAlertedRsiStatus, [])

/-- Running the alert effect (alerting enabled, fixed timeframe) over
successive snapshots, one per refresh tick; returns the final status map and
the per-tick toast lists in tick order. -/
def runAlertTicks (timeframe : String) (st : StatusMap) :
    List Snapshot → StatusMap × List (List ToastPayload)
  | [] => (st, [])
  | snap :: rest =>
    let r := alertEffect true timeframe snap st
    let r2 := runAlertTicks timeframe r.1 rest
    (r2.1, r.2 :: r2.2)

/-- Promise.all over a list of settled fetch outcomes: none as soon as any
fetch rejected, otherwise the list of resolutions in order. -/
def collectAll {α : Type} : List (Option α) → Option (List α)
  | [] => some []
  | none :: _ => none
  | some a :: rest => (collectAll rest).map (fun l => a :: l)

/-- fetchData (App.tsx lines 200-220) as a function of the settled per-symbol
fetch outcomes, returning the new (symbolsData, loading) pair. On an empty
symbol list the snapshot is cleared and loading is cleared without issuing any
fetch; otherwise, if every fetch resolves, the snapshot is rebuilt from scratch
by pairing userSymbols with the results, while if any fetch rejects the await
of Promise.all throws, the catch only logs, and the previous snapshot is left
untouched; the finally block clears loading on every path. -/
def fetchData (userSymbols : List String) (fetch : String → Option SymbolData)
    (prevSymbolsData : Snapshot) : Snapshot × Bool :=
  if userSymbols.isEmpty then ([], false)
  else
    match collectAll (userSymbols.map fetch) with
    | some results => (userSymbols.zip results, false)
    | none => (prevSymbolsData, false)

/-- An in-flight refresh cycle: the symbols it fetches and their outcomes. -/
structure PendingCycle where
  symbols : List String
  fetch : String → Option SymbolData

/-- State of the refresh loop: the in-flight cycles (in start order) plus the
published snapshot and the loading flag. -/
structure FetchLoopState where
  pending : List PendingCycle
  symbolsData : Snapshot
  loading : Bool

/-- Synchronous prefix of a fetchData invocation (App.tsx lines 200-209): the
empty-list branch clears the snapshot immediately; otherwise the per-symbol
fetches are issued unconditionally — App.tsx contains no in-flight guard — and
loading is set while the new cycle joins the pending ones. -/
def startCycle (userSymbols : List String) (fetch : String → Option SymbolData)
    (st : FetchLoopState) : FetchLoopState :=
  if userSymbols.isEmpty then { st with symbolsData := [], loading := false }
  else { st with pending := st.pending ++ [⟨userSymbols, fetch⟩], loading := true }

/-- Snapshot produced when a cycle settles: wholesale replacement on success,
previous snapshot kept on failure (App.tsx lines 209-219). -/
def cycleOutcome (c : PendingCycle) (prev : Snapshot) : Snapshot :=
  match collectAll (c.symbols.map c.fetch) with
  | some results => c.symbols.zip results
  | none => prev

/-- Continuation of fetchData after its awaited Promise.all settles, applied
to the oldest pending cycle: one snapshot swap plus clearing loading. -/
def completeOldest (st : FetchLoopState) : FetchLoopState :=
  match st.pending with
  | [] => st
  | c :: rest =>
    { pending := rest, symbolsData := cycleOutcome c st.symbolsData, loading := false }

/-- Lazy useState initializer pattern (App.tsx lines 119-147 and 157-164):
read the stored string, fall back to the default when the key is absent or the
string is empty (a falsy guard in the source), parse it, and fall back to the
default again when parsing throws. -/
def loadStoredConfig {V : Type} (parse : String → Option V) (dflt : V) :
    Option String → V
  | none => dflt
  | some s => if s = "" then dflt else (parse s).getD dflt

/-- The four raw localStorage reads consumed by the initializers. -/
structure StoredConfig where
  allSymbolsRaw : Option String
  userSymbolsRaw : Option String
  favoritesRaw : Option String
  alertsEnabledRaw : Option String

/-- The four initializers of App.tsx in source order: allSymbols (default
DEFAULT_SYMBOLS, passed here as defaultSymbols since constants.ts only names
it), userSymbols (default: the loaded allSymbols list), favorites (default
empty), areAlertsEnabled (default false). -/
def initConfig (parseList : String → Option (List String))
    (parseBool : String → Option Bool) (defaultSymbols : List String)
    (st : StoredConfig) : List String × List String × List String × Bool :=
  let allSymbols := loadStoredConfig parseList defaultSymbols st.allSymbolsRaw
  let userSymbols := loadStoredConfig parseList allSymbols st.userSymbolsRaw
  let favorites := loadStoredConfig parseList [] st.favoritesRaw
  let alerts := loadStoredConfig parseBool false st.alertsEnabledRaw
  (allSymbols, userSymbols, favorites, alerts)

/-- Stored value that is absent, empty, or fails to parse. -/
def badStored {V : Type} (parse : String → Option V) : Option String → Prop
  | none => True
  | some s => s = "" ∨ parse s = none

/-- Singleton snapshot with one RSI point, used for concrete scenarios. -/
def snapOfBTC (v : ℚ) : Snapshot := [("BTCUSDT", ⟨[⟨0, v⟩]⟩)]

/-- Concrete fetch outcomes where the fetch of AAA rejects and BBB resolves. -/
def fetchC1 : String → Option SymbolData :=
  fun s => if s = "BBB" then some ⟨[⟨1, 60⟩]⟩ else none

/-- Concrete previous snapshot holding stale data for AAA and BBB. -/
def prevC1 : Snapshot := [("AAA", ⟨[⟨0, 40⟩]⟩), ("BBB", ⟨[⟨0, 50⟩]⟩)]

/-- Concrete toast payload for symbol AAA. -/
def payloadA : ToastPayload := ⟨"AAA", "1h", 75, ToastKind.overbought⟩

/-- Concrete toast payload for symbol BBB. -/
def payloadB : ToastPayload := ⟨"BBB", "1h", 80, ToastKind.overbought⟩

/-- Concrete fetch outcomes where every fetch resolves. -/
def fetchC6 : String → Option SymbolData := fun _ => some ⟨[⟨0, 50⟩]⟩

/-- Concrete initial refresh-loop state with nothing in flight. -/
def stC6 : FetchLoopState := ⟨[], [], true⟩

/-- Concrete snapshot where AAA has an empty RSI series and BBB does not. -/
def snapC9 : Snapshot := [("AAA", ⟨[]⟩), ("BBB", ⟨[⟨0, 75⟩]⟩)]

/-- Toasts pushed for one symbol by a single pass of the forEach body, in
terms of the same branches as forEachBody. -/
def emitted (timeframe : String) (base : StatusMap) (symbol : String)
    (d : SymbolData) : List ToastPayload :=
  match d.rsi.getLast? with
  | none => []
  | some lastPoint =>
    let previousStatus := (base symbol).getD AlertStatus.neutral
    if lastPoint.value ≥ overboughtThreshold then
      if previousStatus ≠ AlertStatus.overbought then
        [⟨symbol, timeframe, lastPoint.value, ToastKind.overbought⟩]
      else []
    else if lastPoint.value ≤ oversoldThreshold then
      if previousStatus ≠ AlertStatus.oversold then
        [⟨symbol, timeframe, lastPoint.value, ToastKind.oversold⟩]
      else []
    else []

/-! Helper lemmas about the forEach body. -/

lemma forEachBody_empty (tf : String) (base : StatusMap)
    (acc : StatusMap × List ToastPayload) (sym : String) (d : SymbolData)
    (h : d.rsi.getLast? = none) : forEachBody tf base acc sym d = acc := by
  unfold forEachBody
  rw [h]

lemma forEachBody_fst_ne (tf : String) (base : StatusMap)
    (acc : StatusMap × List ToastPayload) (sym : String) (d : SymbolData)
    (s : String) (hs : s ≠ sym) :
    (forEachBody tf base acc sym d).1 s = acc.1 s := by
  unfold forEachBody
  cases h : d.rsi.getLast? with
  | none => rfl
  | some p =>
    dsimp only
    split_ifs <;> simp [updateStatus, hs]

lemma forEachBody_fst_self (tf : String) (base : StatusMap)
    (acc : StatusMap × List ToastPayload) (sym : String) (d : SymbolData)
    (p : RsiPoint) (h : d.rsi.getLast? = some p) :
    (forEachBody tf base acc sym d).1 sym = some (computeStatus p.value) := by
  unfold forEachBody computeStatus
  rw [h]
  dsimp only
  split_ifs <;> simp [updateStatus]

lemma forEachBody_snd (tf : String) (base : StatusMap)
    (acc : StatusMap × List ToastPayload) (sym : String) (d : SymbolData) :
    (forEachBody tf base acc sym d).2 = acc.2 ++ emitted tf base sym d := by
  unfold forEachBody emitted
  cases h : d.rsi.getLast? with
  | none => simp
  | some p =>
    dsimp only
    split_ifs <;> simp

lemma emitted_mem (tf : String) (base : StatusMap) (sym : String) (d : SymbolData)
    (t : ToastPayload) (ht : t ∈ emitted tf base sym d) :
    t.symbol = sym ∧ d.rsi ≠ [] := by
  unfold emitted at ht
  cases h : d.rsi.getLast? with
  | none => rw [h] at ht; simp at ht
  | some p =>
    rw [h] at ht
    refine ⟨?_, ?_⟩
    · dsimp only at ht
      split_ifs at ht <;> simp_all
    · intro hnil
      rw [hnil] at h
      simp at h

lemma emitted_nil_of_eq (tf : String) (base : StatusMap) (sym : String)
    (d : SymbolData) (p : RsiPoint) (h : d.rsi.getLast? = some p)
    (hst : (base sym).getD AlertStatus.neutral = computeStatus p.value) :
    emitted tf base sym d = [] := by
  unfold computeStatus at hst
  unfold emitted
  rw [h]
  dsimp only
  split_ifs with h1 h2 h3 h4 <;> simp_all

lemma emitted_ne_nil_iff (tf : String) (base : StatusMap) (sym : String)
    (d : SymbolData) (p : RsiPoint) (h : d.rsi.getLast? = some p) :
    emitted tf base sym d ≠ [] ↔
      (computeStatus p.value ≠ (base sym).getD AlertStatus.neutral ∧
       computeStatus p.value ≠ AlertStatus.neutral) := by
  unfold emitted computeStatus
  rw [h]
  dsimp only
  split_ifs with h1 h2 h3 h4 <;> simp_all [eq_comm]

/-! Helper lemmas about the guard and the fold of the alert effect. -/

lemma alertEffect_disabled (tf : String) (snap : Snapshot) (base : StatusMap) :
    alertEffect false tf snap base = (base, []) := by
  unfold alertEffect
  rw [if_pos (Or.inl rfl)]

lemma alertEffect_not_allowed (enabled : Bool) (tf : String) (snap : Snapshot)
    (base : StatusMap) (h : tf ∉ ALLOWED_TIMEFRAMES_FOR_ALERTS) :
    alertEffect enabled tf snap base = (base, []) := by
  unfold alertEffect
  rw [if_pos (Or.inr (Or.inl h))]

lemma alertEffect_run (tf : String) (snap : Snapshot) (base : StatusMap)
    (ht : tf ∈ ALLOWED_TIMEFRAMES_FOR_ALERTS) (hne : snap ≠ []) :
    alertEffect true tf snap base =
      snap.foldl (fun acc entry => forEachBody tf base acc entry.1 entry.2)
        (base, []) := by
  unfold alertEffect
  have hcond : ¬(true = false ∨ tf ∉ ALLOWED_TIMEFRAMES_FOR_ALERTS
      ∨ snap.isEmpty = true) := by
    simp [ht, hne]
  rw [if_neg hcond]

lemma fold_fst_not_mem (tf : String) (base : StatusMap) (s : String) :
    ∀ (snap : Snapshot), s ∉ snap.map Prod.fst →
    ∀ acc, ((snap.foldl (fun acc entry => forEachBody tf base acc entry.1 entry.2)
      acc).1) s = acc.1 s := by
  intro snap
  induction snap with
  | nil => intro _ acc; rfl
  | cons hd rest ih =>
    intro hs acc
    simp only [List.map_cons, List.mem_cons] at hs
    push_neg at hs
    rw [List.foldl_cons]
    rw [ih hs.2]
    exact forEachBody_fst_ne tf base acc hd.1 hd.2 s hs.1

lemma nodup_key_not_mem_tail (hd : String × SymbolData) (rest : Snapshot)
    (hnd : ((hd :: rest).map Prod.fst).Nodup) : hd.1 ∉ rest.map Prod.fst := by
  simp only [List.map_cons, List.nodup_cons] at hnd
  exact hnd.1

lemma fold_fst_mem (tf : String) (base : StatusMap) (sym : String) (d : SymbolData)
    (p : RsiPoint) (h : d.rsi.getLast? = some p) :
    ∀ (snap : Snapshot), (snap.map Prod.fst).Nodup → (sym, d) ∈ snap →
    ∀ acc, ((snap.foldl (fun acc entry => forEachBody tf base acc entry.1 entry.2)
      acc).1) sym = some (computeStatus p.value) := by
  intro snap
  induction snap with
  | nil => intro _ hmem; cases hmem
  | cons hd rest ih =>
    intro hnd hmem acc
    rw [List.foldl_cons]
    rcases List.mem_cons.mp hmem with heq | hmem2
    · have hkey : sym ∉ rest.map Prod.fst := by
        have := nodup_key_not_mem_tail hd rest hnd
        rw [← heq] at this
        exact this
      rw [fold_fst_not_mem tf base sym rest hkey]
      rw [← heq]
      exact forEachBody_fst_self tf base acc sym d p h
    · have hnd' : (rest.map Prod.fst).Nodup := by
        simp only [List.map_cons, List.nodup_cons] at hnd
        exact hnd.2
      exact ih hnd' hmem2 _

lemma fold_fst_skip (tf : String) (base : StatusMap) (sym : String) (d : SymbolData)
    (h : d.rsi.getLast? = none) :
    ∀ (snap : Snapshot), (snap.map Prod.fst).Nodup → (sym, d) ∈ snap →
    ∀ acc, ((snap.foldl (fun acc entry => forEachBody tf base acc entry.1 entry.2)
      acc).1) sym = acc.1 sym := by
  intro snap
  induction snap with
  | nil => intro _ hmem; cases hmem
  | cons hd rest ih =>
    intro hnd hmem acc
    rw [List.foldl_cons]
    rcases List.mem_cons.mp hmem with heq | hmem2
    · have hkey : sym ∉ rest.map Prod.fst := by
        have := nodup_key_not_mem_tail hd rest hnd
        rw [← heq] at this
        exact this
      rw [fold_fst_not_mem tf base sym rest hkey]
      rw [← heq]
      rw [forEachBody_empty tf base acc sym d h]
    · have hnd' : (rest.map Prod.fst).Nodup := by
        simp only [List.map_cons, List.nodup_cons] at hnd
        exact hnd.2
      have hsymtl : sym ∈ rest.map Prod.fst :=
        List.mem_map.mpr ⟨(sym, d), hmem2, rfl⟩
      have hne : sym ≠ hd.1 :=
        fun he => (nodup_key_not_mem_tail hd rest hnd) (he ▸ hsymtl)
      rw [ih hnd' hmem2 _]
      exact forEachBody_fst_ne tf base acc hd.1 hd.2 sym hne

lemma fold_snd_mem (tf : String) (base : StatusMap) :
    ∀ (snap : Snapshot) (acc : StatusMap × List ToastPayload) (t : ToastPayload),
    t ∈ (snap.foldl (fun acc entry => forEachBody tf base acc entry.1 entry.2) acc).2 →
    t ∈ acc.2 ∨ ∃ q ∈ snap, t.symbol = q.1 ∧ q.2.rsi ≠ [] := by
  intro snap
  induction snap with
  | nil => intro acc t ht; exact Or.inl ht
  | cons hd rest ih =>
    intro acc t ht
    rw [List.foldl_cons] at ht
    rcases ih _ t ht with hacc | ⟨q, hq, hsym, hrsi⟩
    · rw [forEachBody_snd] at hacc
      rcases List.mem_append.mp hacc with h1 | h2
      · exact Or.inl h1
      · rcases emitted_mem tf base hd.1 hd.2 t h2 with ⟨hsym, hrsi⟩
        exact Or.inr ⟨hd, List.mem_cons_self hd rest, hsym, hrsi⟩
    · exact Or.inr ⟨q, List.mem_cons_of_mem hd hq, hsym, hrsi⟩

lemma key_unique : ∀ (snap : Snapshot), (snap.map Prod.fst).Nodup →
    ∀ (a : String) (b c : SymbolData), (a, b) ∈ snap → (a, c) ∈ snap → b = c := by
  intro snap
  induction snap with
  | nil => intro _ a b c hb; cases hb
  | cons hd rest ih =>
    intro hnd a b c hb hc
    have hkey := nodup_key_not_mem_tail hd rest hnd
    have hnd' : (rest.map Prod.fst).Nodup := by
      simp only [List.map_cons, List.nodup_cons] at hnd
      exact hnd.2
    rcases List.mem_cons.mp hb with hb1 | hb2 <;> rcases List.mem_cons.mp hc with hc1 | hc2
    · rw [← hb1] at hc1
      exact congrArg Prod.snd hc1.symm
    · exfalso
      apply hkey
      rw [← hb1]
      exact List.mem_map.mpr ⟨(a, c), hc2, rfl⟩
    · exfalso
      apply hkey
      rw [← hc1]
      exact List.mem_map.mpr ⟨(a, b), hb2, rfl⟩
    · exact ih hnd' a b c hb2 hc2

/-! Further shared lemmas. -/

lemma computeStatus_overbought {v : ℚ} (h : v ≥ overboughtThreshold) :
    computeStatus v = AlertStatus.overbought := by
  unfold computeStatus
  rw [if_pos h]

lemma collectAll_eq_none {α : Type} :
    ∀ (l : List (Option α)), none ∈ l → collectAll l = none := by
  intro l
  induction l with
  | nil => intro h; cases h
  | cons hd rest ih =>
    intro h
    cases hd with
    | none => rfl
    | some a =>
      rcases List.mem_cons.mp h with h1 | h2
      · exact absurd h1 (by simp)
      · show (collectAll rest).map _ = none
        rw [ih h2]
        rfl

lemma removeToast_length_aux :
    ∀ (ts : List Toast) (id : Nat), (ts.map Toast.id).Nodup →
    ∀ t ∈ ts, t.id = id → (removeToast id ts).length + 1 = ts.length := by
  intro ts
  induction ts with
  | nil => intro id _ t ht; cases ht
  | cons hd rest ih =>
    intro id hnd t ht hid
    simp only [List.map_cons, List.nodup_cons] at hnd
    by_cases hhd : hd.id = id
    · have hrest : removeToast id rest = rest := by
        apply List.filter_eq_self.mpr
        intro a ha
        simp only [ne_eq, decide_eq_true_eq]
        intro haid
        exact hnd.1 (List.mem_map.mpr ⟨a, ha, haid.trans hhd.symm⟩)
      have hstep : removeToast id (hd :: rest) = removeToast id rest := by
        simp [removeToast, List.filter_cons, hhd]
      rw [hstep, hrest]
      simp
    · have hstep : removeToast id (hd :: rest) = hd :: removeToast id rest := by
        simp [removeToast, List.filter_cons, hhd]
      rcases List.mem_cons.mp ht with h1 | h2
      · exact absurd (h1 ▸ hid) hhd
      · rw [hstep]
        simp only [List.length_cons]
        rw [ih id hnd.2 t h2 hid]

lemma pushAll_map_id :
    ∀ (pushes : List (Nat × ToastPayload)) (q : List Toast),
      (pushAll pushes q).map Toast.id = q.map Toast.id ++ pushes.map Prod.fst := by
  intro pushes
  induction pushes with
  | nil => intro q; simp [pushAll]
  | cons pr rest ih =>
    intro q
    have hstep : pushAll (pr :: rest) q = pushAll rest (addToast pr.1 pr.2 q) := by
      unfold pushAll
      rw [List.foldl_cons]
    rw [hstep, ih]
    simp [addToast]

lemma loadStoredConfig_bad {V : Type} (parse : String → Option V) (dflt : V)
    (r : Option String) (h : badStored parse r) :
    loadStoredConfig parse dflt r = dflt := by
  cases r with
  | none => rfl
  | some s =>
    have hred : loadStoredConfig parse dflt (some s)
        = if s = "" then dflt else (parse s).getD dflt := rfl
    have h2 : s = "" ∨ parse s = none := h
    rw [hred]
    rcases h2 with he | hp
    · rw [if_pos he]
    · by_cases he : s = ""
      · rw [if_pos he]
      · rw [if_neg he, hp]
        rfl

/-! Claim theorems. -/

/-- C10: invoking a refresh with an empty tracked-symbol list performs no
fetches (the result is independent of the fetch outcomes, which are never
consulted) and replaces the entire snapshot with the empty mapping, discarding
every previously tracked symbol's data, while the loading flag is cleared. -/
theorem empty_symbol_list_clears_snapshot :
    ∀ (fetch : String → Option SymbolData) (prev : Snapshot),
      fetchData [] fetch prev = ([], false) := by
  intro fetch prev
  rfl

/-- C1, counterexample: in a two-symbol cycle where the fetch of AAA rejects
and the fetch of BBB resolves with fresh data, the resulting snapshot is the
whole previous snapshot; in particular BBB's entry is its stale previous data,
not the freshly fetched data the claim requires. -/
theorem one_failed_fetch_counterexample :
    fetchC1 "AAA" = none
    ∧ fetchC1 "BBB" = some ⟨[⟨1, 60⟩]⟩
    ∧ fetchData ["AAA", "BBB"] fetchC1 prevC1 = (prevC1, false)
    ∧ ("BBB", (⟨[⟨1, 60⟩]⟩ : SymbolData)) ∉ (fetchData ["AAA", "BBB"] fetchC1 prevC1).1 := by
  refine ⟨rfl, rfl, by decide, by decide⟩

/-- C1, amended: if any individual fetch of a non-empty refresh cycle fails,
the entire cycle's results are discarded — the snapshot retains every symbol's
previous entry unchanged, the successfully fetched siblings included — no
exception escapes, and the loading flag is cleared. -/
theorem failed_fetch_discards_whole_cycle :
    ∀ (userSymbols : List String) (fetch : String → Option SymbolData)
      (prev : Snapshot) (s : String),
      s ∈ userSymbols → fetch s = none →
      fetchData userSymbols fetch prev = (prev, false) := by
  intro us fetch prev s hs hf
  have hne : us.isEmpty = false := by
    cases us with
    | nil => cases hs
    | cons a l => rfl
  have hnone : none ∈ us.map fetch := List.mem_map.mpr ⟨s, hs, hf⟩
  unfold fetchData
  rw [hne]
  rw [collectAll_eq_none (us.map fetch) hnone]
  exact rfl

/-- C1, witness for the amended theorem at a concrete input. -/
theorem failed_fetch_discards_whole_cycle_witness :
    fetchData ["AAA", "BBB"] fetchC1 prevC1 = (prevC1, false) :=
  failed_fetch_discards_whole_cycle ["AAA", "BBB"] fetchC1 prevC1 "AAA"
    (by decide) rfl

/-- C6, counterexample: starting a refresh cycle while one is already pending
is not a no-op — fetchData has no in-flight guard, so the second start issues
a second cycle and two cycles are in flight at once. -/
theorem overlapping_refresh_counterexample :
    (startCycle ["AAA"] fetchC6 stC6).pending.length = 1
    ∧ (startCycle ["AAA"] fetchC6 (startCycle ["AAA"] fetchC6 stC6)).pending.length = 2 :=
  ⟨rfl, rfl⟩

/-- C6, amended: fetchData has no single-flight guard — a refresh invoked with
a non-empty symbol list while a previous cycle is pending unconditionally
issues its own cycle, so several cycles can be in flight at once; each
completed cycle still performs exactly one atomic snapshot swap: on success
the snapshot is replaced wholesale by that cycle's complete mapping and on
failure it is left unchanged, so no partial snapshot is ever published. -/
theorem no_single_flight_guard_but_atomic_swap :
    (∀ (userSymbols : List String) (fetch : String → Option SymbolData)
        (st : FetchLoopState), userSymbols.isEmpty = false →
      (startCycle userSymbols fetch st).pending = st.pending ++ [⟨userSymbols, fetch⟩])
    ∧ (∀ (st : FetchLoopState) (c : PendingCycle) (rest : List PendingCycle),
        st.pending = c :: rest →
        (completeOldest st).symbolsData = cycleOutcome c st.symbolsData
        ∧ (completeOldest st).pending = rest)
    ∧ (∀ (c : PendingCycle) (prev : Snapshot),
        (∃ results, collectAll (c.symbols.map c.fetch) = some results
          ∧ cycleOutcome c prev = c.symbols.zip results)
        ∨ cycleOutcome c prev = prev) := by
  refine ⟨?_, ?_, ?_⟩
  · intro us fetch st h
    unfold startCycle
    rw [h]
    exact rfl
  · intro st c rest hp
    unfold completeOldest
    rw [hp]
    exact ⟨rfl, rfl⟩
  · intro c prev
    cases h : collectAll (c.symbols.map c.fetch) with
    | none =>
      right
      unfold cycleOutcome
      rw [h]
    | some results =>
      left
      refine ⟨results, rfl, ?_⟩
      unfold cycleOutcome
      rw [h]

/-- C6, witness for the amended theorem at a concrete input. -/
theorem no_single_flight_guard_but_atomic_swap_witness :
    (startCycle ["AAA"] fetchC6 stC6).pending = stC6.pending ++ [⟨["AAA"], fetchC6⟩] :=
  no_single_flight_guard_but_atomic_swap.1 ["AAA"] fetchC6 stC6 rfl

/-- C2: on an alert-eligible tick a toast is emitted for a symbol exactly when
the status computed from its latest RSI value differs from the previously
recorded status and the new status is one of the two extremes (entering
neutral never emits, and re-observing the same extreme emits nothing); and for
the status sequence neutral, overbought, overbought, neutral, overbought over
five ticks exactly two toasts fire, at ticks 2 and 5. -/
theorem toast_iff_status_transition :
    (∀ (tf : String), tf ∈ ALLOWED_TIMEFRAMES_FOR_ALERTS →
      ∀ (base : StatusMap) (sym : String) (d : SymbolData) (p : RsiPoint),
        d.rsi.getLast? = some p →
        ((alertEffect true tf [(sym, d)] base).2 ≠ [] ↔
          (computeStatus p.value ≠ (base sym).getD AlertStatus.neutral ∧
           computeStatus p.value ≠ AlertStatus.neutral)))
    ∧ ((runAlertTicks "1h" (fun _ => none)
        [snapOfBTC 50, snapOfBTC 75, snapOfBTC 75, snapOfBTC 50, snapOfBTC 75]).2.map
          List.length) = [0, 1, 0, 0, 1] := by
  constructor
  · intro tf htf base sym d p h
    rw [alertEffect_run tf [(sym, d)] base htf (by simp)]
    rw [List.foldl_cons, List.foldl_nil]
    rw [forEachBody_snd]
    simp only [List.nil_append]
    exact emitted_ne_nil_iff tf base sym d p h
  · decide

/-- C2, witness: with previous status absent (treated as neutral) and latest
RSI 75, the overbought transition emits a toast. -/
theorem toast_iff_status_transition_witness :
    (alertEffect true "1h" (snapOfBTC 75) (fun _ => none)).2 ≠ [] :=
  (toast_iff_status_transition.1 "1h" (by decide) (fun _ => none) "BTCUSDT"
    ⟨[⟨0, 75⟩]⟩ ⟨0, 75⟩ rfl).mpr (by decide)

/-- C3: on an alert-eligible tick, for every symbol of the snapshot with a
non-empty RSI series, the recorded status after the cycle is exactly the one
computed from that symbol's latest RSI value — overbought when at least 70,
oversold when at most 30, neutral otherwise — regardless of whether a toast
fired. -/
theorem status_recorded_from_latest_rsi :
    ∀ (tf : String), tf ∈ ALLOWED_TIMEFRAMES_FOR_ALERTS →
    ∀ (snap : Snapshot), (snap.map Prod.fst).Nodup →
    ∀ (base : StatusMap) (sym : String) (d : SymbolData) (p : RsiPoint),
      (sym, d) ∈ snap → d.rsi.getLast? = some p →
      (alertEffect true tf snap base).1 sym =
        some (if p.value ≥ overboughtThreshold then AlertStatus.overbought
              else if p.value ≤ oversoldThreshold then AlertStatus.oversold
              else AlertStatus.neutral) := by
  intro tf htf snap hnd base sym d p hmem h
  have hne : snap ≠ [] := by
    intro he
    rw [he] at hmem
    cases hmem
  rw [alertEffect_run tf snap base htf hne]
  rw [fold_fst_mem tf base sym d p h snap hnd hmem (base, [])]
  rfl

/-- C3, witness at a concrete snapshot with latest RSI 75. -/
theorem status_recorded_from_latest_rsi_witness :
    (alertEffect true "1h" (snapOfBTC 75) (fun _ => none)).1 "BTCUSDT"
      = some AlertStatus.overbought := by
  have h := status_recorded_from_latest_rsi "1h" (by decide) (snapOfBTC 75)
    (by decide) (fun _ => none) "BTCUSDT" ⟨[⟨0, 75⟩]⟩ ⟨0, 75⟩ (by decide) rfl
  rw [h]
  decide

/-- C5: the alert effect runs only when alerting is enabled and the timeframe
is in the allow-list — when disabled (or the timeframe ineligible) the status
map is not touched and no toast fires — and consequently, toggling alerting
off and then on between two overbought ticks of a symbol emits no toast on
re-enable, because the recorded status still reads overbought. -/
theorem alerts_gated_and_no_retroactive_fire :
    (∀ (tf : String) (snap : Snapshot) (base : StatusMap),
      alertEffect false tf snap base = (base, []))
    ∧ (∀ (enabled : Bool) (tf : String) (snap : Snapshot) (base : StatusMap),
        tf ∉ ALLOWED_TIMEFRAMES_FOR_ALERTS → alertEffect enabled tf snap base = (base, []))
    ∧ (∀ (tf sym : String) (v₁ v₂ : ℚ) (base : StatusMap) (t₁ t₂ : Nat),
        tf ∈ ALLOWED_TIMEFRAMES_FOR_ALERTS →
        v₁ ≥ overboughtThreshold → v₂ ≥ overboughtThreshold →
        (alertEffect true tf [(sym, ⟨[⟨t₂, v₂⟩]⟩)]
          (alertEffect false tf [(sym, ⟨[⟨t₂, v₂⟩]⟩)]
            (alertEffect true tf [(sym, ⟨[⟨t₁, v₁⟩]⟩)] base).1).1).2 = []) := by
  refine ⟨?_, ?_, ?_⟩
  · intro tf snap base
    exact alertEffect_disabled tf snap base
  · intro enabled tf snap base h
    exact alertEffect_not_allowed enabled tf snap base h
  · intro tf sym v₁ v₂ base t₁ t₂ htf hv₁ hv₂
    set base₁ := (alertEffect true tf [(sym, ⟨[⟨t₁, v₁⟩]⟩)] base).1 with hb₁
    have hstatus : base₁ sym = some AlertStatus.overbought := by
      rw [hb₁, alertEffect_run tf [(sym, ⟨[⟨t₁, v₁⟩]⟩)] base htf (by simp)]
      rw [List.foldl_cons, List.foldl_nil]
      rw [forEachBody_fst_self tf base (base, []) sym ⟨[⟨t₁, v₁⟩]⟩ ⟨t₁, v₁⟩ rfl]
      rw [computeStatus_overbought hv₁]
    rw [alertEffect_disabled tf [(sym, ⟨[⟨t₂, v₂⟩]⟩)] base₁]
    rw [alertEffect_run tf [(sym, ⟨[⟨t₂, v₂⟩]⟩)] base₁ htf (by simp)]
    rw [List.foldl_cons, List.foldl_nil]
    rw [forEachBody_snd]
    simp only [List.nil_append]
    apply emitted_nil_of_eq tf base₁ sym ⟨[⟨t₂, v₂⟩]⟩ ⟨t₂, v₂⟩ rfl
    rw [hstatus, computeStatus_overbought hv₂]
    rfl

/-- C5, witness: concrete off-then-on scenario between two overbought ticks
emits nothing on re-enable. -/
theorem alerts_gated_and_no_retroactive_fire_witness :
    (alertEffect true "1h" [("BTCUSDT", ⟨[⟨1, 80⟩]⟩)]
      (alertEffect false "1h" [("BTCUSDT", ⟨[⟨1, 80⟩]⟩)]
        (alertEffect true "1h" [("BTCUSDT", ⟨[⟨0, 75⟩]⟩)] (fun _ => none)).1).1).2 = [] :=
  alerts_gated_and_no_retroactive_fire.2.2 "1h" "BTCUSDT" 75 80 (fun _ => none) 0 1
    (by decide) (by decide) (by decide)

/-- C9: a symbol of the snapshot whose RSI series is empty is skipped by the
alert step — its status-map entry is unchanged and no toast is emitted for
it — while any other symbol with a non-empty series is still processed
normally, its status being recorded from its latest RSI value. -/
theorem empty_rsi_symbol_skipped :
    ∀ (enabled : Bool) (tf : String) (snap : Snapshot) (base : StatusMap)
      (sym : String) (d : SymbolData),
      (snap.map Prod.fst).Nodup → (sym, d) ∈ snap → d.rsi = [] →
      ((alertEffect enabled tf snap base).1 sym = base sym
       ∧ (∀ t ∈ (alertEffect enabled tf snap base).2, t.symbol ≠ sym)
       ∧ (∀ (s2 : String) (d2 : SymbolData) (p2 : RsiPoint),
           enabled = true → tf ∈ ALLOWED_TIMEFRAMES_FOR_ALERTS →
           (s2, d2) ∈ snap → d2.rsi.getLast? = some p2 →
           (alertEffect enabled tf snap base).1 s2 = some (computeStatus p2.value))) := by
  intro enabled tf snap base sym d hnd hmem hempty
  have hlast : d.rsi.getLast? = none := by
    rw [hempty]
    rfl
  cases enabled with
  | false =>
    rw [alertEffect_disabled tf snap base]
    refine ⟨rfl, ?_, ?_⟩
    · intro t ht
      cases ht
    · intro s2 d2 p2 he
      cases he
  | true =>
    by_cases htf : tf ∈ ALLOWED_TIMEFRAMES_FOR_ALERTS
    · have hne : snap ≠ [] := by
        intro he
        rw [he] at hmem
        cases hmem
      rw [alertEffect_run tf snap base htf hne]
      refine ⟨?_, ?_, ?_⟩
      · exact fold_fst_skip tf base sym d hlast snap hnd hmem (base, [])
      · intro t ht
        rcases fold_snd_mem tf base snap (base, []) t ht with hacc | ⟨q, hq, hsymq, hrsi⟩
        · cases hacc
        · obtain ⟨q1, q2⟩ := q
          intro heq
          apply hrsi
          have hq1 : q1 = sym := by
            have h12 := hsymq.symm.trans heq
            simpa using h12
          have hmem' : (q1, d) ∈ snap := by
            rw [hq1]
            exact hmem
          have hq2d : q2 = d := key_unique snap hnd q1 q2 d hq hmem'
          show q2.rsi = []
          rw [hq2d, hempty]
      · intro s2 d2 p2 _ _ hmem2 hlast2
        exact fold_fst_mem tf base s2 d2 p2 hlast2 snap hnd hmem2 (base, [])
    · rw [alertEffect_not_allowed true tf snap base htf]
      refine ⟨rfl, ?_, ?_⟩
      · intro t ht
        cases ht
      · intro s2 d2 p2 _ htf2
        exact absurd htf2 htf

/-- C9, witness: in a concrete snapshot where AAA has an empty RSI series,
AAA's status entry stays absent after the alert step. -/
theorem empty_rsi_symbol_skipped_witness :
    (alertEffect true "1h" snapC9 (fun _ => none)).1 "AAA" = none :=
  (empty_rsi_symbol_skipped true "1h" snapC9 (fun _ => none) "AAA" ⟨[]⟩
    (by decide) (by decide) rfl).1

/-- C4, counterexample: two toasts pushed at the same clock reading (the id is
Date.now(), so two pushes within the same millisecond share it) leave the
queue holding two live toasts with equal ids — the later push's id is neither
distinct from nor larger than the earlier one's. -/
theorem toast_id_collision_counterexample :
    ((addToast 1000 payloadB (addToast 1000 payloadA [])).map Toast.id) = [1000, 1000]
    ∧ ¬ ((addToast 1000 payloadB (addToast 1000 payloadA [])).map Toast.id).Nodup
    ∧ ¬ (1000 < 1000) := by
  refine ⟨by decide, by decide, by decide⟩

/-- C4, amended: each pushed toast is assigned as id the clock reading at push
time, so the queue's ids are exactly the push timestamps in push order; when
the clock readings are non-decreasing across pushes the ids are non-decreasing
too, but two pushes under the same clock reading receive equal ids, so
uniqueness and strict growth are not guaranteed. -/
theorem toast_ids_are_push_timestamps :
    ∀ (pushes : List (Nat × ToastPayload)),
      (pushAll pushes []).map Toast.id = pushes.map Prod.fst
      ∧ (List.Sorted (· ≤ ·) (pushes.map Prod.fst) →
          List.Sorted (· ≤ ·) ((pushAll pushes []).map Toast.id)) := by
  intro pushes
  have h1 : (pushAll pushes []).map Toast.id = pushes.map Prod.fst := by
    rw [pushAll_map_id pushes []]
    rfl
  refine ⟨h1, ?_⟩
  intro hsorted
  rw [h1]
  exact hsorted

/-- C4, witness for the amended theorem at two pushes with growing clock. -/
theorem toast_ids_are_push_timestamps_witness :
    List.Sorted (· ≤ ·) ((pushAll [(1, payloadA), (2, payloadB)] []).map Toast.id) :=
  (toast_ids_are_push_timestamps [(1, payloadA), (2, payloadB)]).2 (by decide)

/-- C7: dismissing an id removes exactly the toast carrying that id — the
remainder keeps its insertion order (it is a sublist of the original queue),
no toast with the dismissed id survives, every other toast survives, a dismiss
of an id not present in the queue is a no-op leaving the queue unchanged, and
when ids are pairwise distinct and the id is present exactly one element is
removed. -/
theorem removeToast_removes_by_id :
    ∀ (id : Nat) (ts : List Toast),
      (removeToast id ts).Sublist ts
      ∧ (∀ t ∈ removeToast id ts, t.id ≠ id)
      ∧ (∀ t ∈ ts, t.id ≠ id → t ∈ removeToast id ts)
      ∧ ((∀ t ∈ ts, t.id ≠ id) → removeToast id ts = ts)
      ∧ ((ts.map Toast.id).Nodup → ∀ t ∈ ts, t.id = id →
          (removeToast id ts).length + 1 = ts.length) := by
  intro id ts
  refine ⟨?_, ?_, ?_, ?_, ?_⟩
  · exact List.filter_sublist ts
  · intro t ht
    have h := List.of_mem_filter ht
    simpa using h
  · intro t ht hne
    apply List.mem_filter.mpr
    refine ⟨ht, ?_⟩
    simpa using hne
  · intro hall
    apply List.filter_eq_self.mpr
    intro a ha
    simpa using hall a ha
  · exact removeToast_length_aux ts id

/-- C7, witness: dismissing id 5 from a two-toast queue with distinct ids
removes exactly one element. -/
theorem removeToast_removes_by_id_witness :
    (removeToast 5 [⟨5, "AAA", "1h", 75, ToastKind.overbought⟩,
      ⟨6, "BBB", "1h", 20, ToastKind.oversold⟩]).length + 1 = 2 :=
  (removeToast_removes_by_id 5 [⟨5, "AAA", "1h", 75, ToastKind.overbought⟩,
    ⟨6, "BBB", "1h", 20, ToastKind.oversold⟩]).2.2.2.2 (by decide)
    ⟨5, "AAA", "1h", 75, ToastKind.overbought⟩ (by decide) rfl

/-- C8: when each stored configuration value is absent, empty, or fails to
parse, the four initializers fall back to their documented defaults — the
default symbol list for allSymbols, the loaded all-symbols list (here equal to
that default) for userSymbols, the empty list for favorites, and false for the
alerts-enabled flag — without crashing. -/
theorem malformed_config_defaults :
    ∀ (parseList : String → Option (List String)) (parseBool : String → Option Bool)
      (defaultSymbols : List String) (st : StoredConfig),
      badStored parseList st.allSymbolsRaw → badStored parseList st.userSymbolsRaw →
      badStored parseList st.favoritesRaw → badStored parseBool st.alertsEnabledRaw →
      initConfig parseList parseBool defaultSymbols st
        = (defaultSymbols, defaultSymbols, [], false) := by
  intro parseList parseBool defaultSymbols st h1 h2 h3 h4
  unfold initConfig
  dsimp only
  rw [loadStoredConfig_bad parseList defaultSymbols st.allSymbolsRaw h1]
  rw [loadStoredConfig_bad parseList defaultSymbols st.userSymbolsRaw h2]
  rw [loadStoredConfig_bad parseList [] st.favoritesRaw h3]
  rw [loadStoredConfig_bad parseBool false st.alertsEnabledRaw h4]

/-- C8, witness: a store holding garbage, an absent key, and an empty string
yields all four defaults. -/
theorem malformed_config_defaults_witness :
    initConfig (fun _ => none) (fun _ => none) ["BTCUSDT", "ETHUSDT"]
      ⟨some "garbage", none, some "", some "x"⟩
      = (["BTCUSDT", "ETHUSDT"], ["BTCUSDT", "ETHUSDT"], [], false) :=
  malformed_config_defaults (fun _ => none) (fun _ => none) ["BTCUSDT", "ETHUSDT"]
    ⟨some "garbage", none, some "", some "x"⟩
    (Or.inr rfl) trivial (Or.inl rfl) (Or.inr rfl)

end CryptoScanner
